import Mathlib

/-!
# Verification of the sigma-alert signal engine

Shallow embedding of the core numeric logic of the repository's four alert
scripts (`TQQQ_SOXL_2sigma_alert.py`, `TQQQ_SSO_QLD_2sigma_alert.py`,
`SOXL_1sigma_alert.py`, `QLD_1sigma_alert.py`).

Modelling conventions:
* Prices, returns and fees are rationals (`ℚ`); the source's floats are
  idealized to exact arithmetic.  Price series are lists, ordered by date;
  where a date index matters (`pandas` `.last("365D")`, calendar-year
  denominators) an entry is a pair `(date in days : ℤ, value : ℚ)`.
* A pandas sample standard deviation (`.std()`, `ddof = 1`) is `NaN` for
  fewer than two observations; `NaN` results are modelled by `Option`.
  The standard deviation itself is an irrational square root, so the
  embedding carries the *sample variance* (σ², a rational) everywhere and
  performs every comparison against σ through the decidable predicates
  `sqrtLe` / `sqrtGe` / `mulSqrtLe` below, each proven equivalent to the
  corresponding real-number comparison with `Real.sqrt`.
* Module-level constants of the scripts (window 252, forward days 20,
  fees 0.00065) appear as parameters where a script already takes them as
  (defaulted) function parameters or reads them from module configuration.
-/

/-- Arithmetic mean of a list of rationals (`pandas` mean).  The empty-list
case divides by zero (yielding `0`); it is never reached by callers, which
guard on the length first. -/
def listMean (l : List ℚ) : ℚ := l.sum / l.length

/-- Sample variance with `ddof = 1`, i.e. the square of the `pandas`
`.std()` of the list.  `none` models the `NaN` that `pandas` produces for
fewer than two observations.  The source works with the standard deviation
`σ = √(sampleVar l)`; we keep the rational square. -/
def sampleVar (l : List ℚ) : Option ℚ :=
  if l.length < 2 then none
  else some ((l.map (fun x => (x - listMean l) ^ 2)).sum / ((l.length : ℚ) - 1))

/-- Daily simple returns of a price series: `r[i] = s[i+1]/s[i] - 1`
(`pandas` `pct_change().dropna()`; the leading `NaN` is dropped).  Prices
are assumed nonzero (the source would produce `inf` and discard it via the
`isfinite` checks; only positive price series appear in the claims). -/
def pct_change (s : List ℚ) : List ℚ :=
  (s.zip s.tail).map (fun p => p.2 / p.1 - 1)

/-- Decides `Real.sqrt v ≤ q` by rational arithmetic. -/
def sqrtLe (v q : ℚ) : Bool := decide (0 ≤ q) && decide (v ≤ q ^ 2)

/-- Decides `q ≤ Real.sqrt v` by rational arithmetic. -/
def sqrtGe (v q : ℚ) : Bool := decide (q ≤ 0) || decide (q ^ 2 ≤ v)

/-- Decides `c * Real.sqrt v ≤ b` by rational arithmetic (sign analysis on
`c`).  This is how the embedding evaluates the source's threshold test
`close ≤ prev * (1 - k*σ)`, rewritten as `k*prev*σ ≤ prev - close`. -/
def mulSqrtLe (c v b : ℚ) : Bool :=
  if c = 0 then decide (0 ≤ b)
  else if 0 < c then sqrtLe v (b / c)
  else sqrtGe v (b / c)

theorem sqrtLe_iff (v q : ℚ) :
    sqrtLe v q = true ↔ Real.sqrt (v : ℝ) ≤ (q : ℝ) := by
  rw [Real.sqrt_le_iff]
  simp only [sqrtLe, Bool.and_eq_true, decide_eq_true_eq]
  constructor
  · rintro ⟨h1, h2⟩
    exact ⟨by exact_mod_cast h1, by exact_mod_cast h2⟩
  · rintro ⟨h1, h2⟩
    exact ⟨by exact_mod_cast h1, by exact_mod_cast h2⟩

theorem sqrtGe_iff (v q : ℚ) :
    sqrtGe v q = true ↔ (q : ℝ) ≤ Real.sqrt (v : ℝ) := by
  simp only [sqrtGe, Bool.or_eq_true, decide_eq_true_eq]
  constructor
  · rintro (h | h)
    · exact le_trans (by exact_mod_cast h) (Real.sqrt_nonneg _)
    · exact Real.le_sqrt_of_sq_le (by exact_mod_cast h)
  · intro h
    by_cases hq : q ≤ 0
    · exact Or.inl hq
    · refine Or.inr ?_
      have hq' : (0 : ℝ) < q := by exact_mod_cast lt_of_not_le hq
      have := (Real.le_sqrt' hq').mp h
      exact_mod_cast this

theorem mulSqrtLe_iff (c v b : ℚ) :
    mulSqrtLe c v b = true ↔ (c : ℝ) * Real.sqrt (v : ℝ) ≤ (b : ℝ) := by
  unfold mulSqrtLe
  by_cases hc0 : c = 0
  · subst hc0; simp
  · simp only [hc0, if_false]
    by_cases hcpos : 0 < c
    · have hcR : (0 : ℝ) < (c : ℝ) := by exact_mod_cast hcpos
      simp only [hcpos, if_true, sqrtLe_iff]
      rw [Rat.cast_div, le_div_iff₀ hcR]
      constructor <;> intro h <;> linarith [h]
    · have hcneg : c < 0 := lt_of_le_of_ne (not_lt.mp hcpos) hc0
      have hcR : (c : ℝ) < 0 := by exact_mod_cast hcneg
      simp only [hcpos, if_false, sqrtGe_iff]
      rw [Rat.cast_div, div_le_iff_of_neg hcR]
      constructor <;> intro h <;> linarith [h]

/-- A sample variance is nonnegative. -/
theorem sampleVar_nonneg {l : List ℚ} {v : ℚ} (h : sampleVar l = some v) :
    0 ≤ v := by
  unfold sampleVar at h
  by_cases hl : l.length < 2
  · simp [hl] at h
  · simp only [hl, if_false, Option.some.injEq] at h
    subst h
    apply div_nonneg
    · apply List.sum_nonneg
      intro x hx
      obtain ⟨y, _, rfl⟩ := List.mem_map.mp hx
      positivity
    · have : (2 : ℚ) ≤ (l.length : ℚ) := by exact_mod_cast not_lt.mp hl
      linarith

/-! ## Trigger-event extraction (`_find_signals_and_forward_path`)

From `TQQQ_SOXL_2sigma_alert.py`, lines 53-77.  The series index is the
position in the (already `dropna`'d) close list; the source stores the
pandas date label at that position, which we model by the position itself.
The source stores `sigma` (a float); we store its square `sigma_sq`, the
rational sample variance of the window. -/

structure TriggerEvent where
  date : ℕ
  entry : ℚ
  prev_close : ℚ
  sigma_sq : ℚ
  forward_high : List ℚ
deriving DecidableEq

/-- One iteration of the scan loop of `_find_signals_and_forward_path` at
index `i`: `none` models the loop's `continue`.
* sigma window: `returns.iloc[i - W - 1 : i - 1]` (`W` returns);
* skip when sigma is `NaN` or `sigma <= 0` (for a sample variance `v ≥ 0`,
  `σ = √v ≤ 0` iff `v ≤ 0`);
* trigger test `today_close <= prev_close * (1 - 2*sigma)`, evaluated as
  `2*prev_close*σ ≤ prev_close - today_close` via `mulSqrtLe` (see
  `signal_at_eq_spec` below for the proof that this matches the real
  comparison);
* `forward_high = high.iloc[i+1 : min(i+1+forward_days, len)]` where the
  source substitutes closes for highs. -/
def signal_at (s : List ℚ) (lookback_window forward_days : ℕ) (i : ℕ) :
    Option TriggerEvent :=
  match sampleVar (((pct_change s).drop (i - lookback_window - 1)).take lookback_window) with
  | none => none
  | some v =>
    if v ≤ 0 then none
    else
      if mulSqrtLe (2 * s.getD (i - 1) 0) v (s.getD (i - 1) 0 - s.getD i 0) then
        some ⟨i, s.getD i 0, s.getD (i - 1) 0, v, (s.drop (i + 1)).take forward_days⟩
      else none

/-- The loop body of `_find_signals_and_forward_path`:
`events.append(...)` on a trigger, `continue` otherwise. -/
def append_signal (s : List ℚ) (lookback_window forward_days : ℕ)
    (events : List TriggerEvent) (i : ℕ) : List TriggerEvent :=
  match signal_at s lookback_window forward_days i with
  | none => events
  | some ev => events ++ [ev]

/-- Function `_find_signals_and_forward_path`: scan `i` over
`range(lookback_window + 1, len(s) - 1)` appending an event whenever the
2σ drop condition holds. -/
def find_signals_and_forward_path (s : List ℚ)
    (lookback_window forward_days : ℕ) : List TriggerEvent :=
  (List.range' (lookback_window + 1) (s.length - 1 - (lookback_window + 1))).foldl
    (append_signal s lookback_window forward_days) []

/-! ## TP grid search (`optimize_tp_fixed_pct_for_symbol`)

From `TQQQ_SOXL_2sigma_alert.py`, lines 79-107. -/

/-- Hit test `np.any(f_high >= tp_price)` with `tp_price = entry * (1 + tp)`. -/
def event_hit (ev : TriggerEvent) (tp : ℚ) : Bool :=
  ev.forward_high.any (fun p => decide (ev.entry * (1 + tp) ≤ p))

/-- Per-event contribution to a candidate's aggregate: `tp - 2*fees` on a
hit, `0` on a miss. -/
def event_pnl (fees tp : ℚ) (ev : TriggerEvent) : ℚ :=
  if event_hit ev tp then tp - 2 * fees else 0

/-- A candidate's aggregate net return `total_return` over all events. -/
def tp_total_return (events : List TriggerEvent) (fees tp : ℚ) : ℚ :=
  (events.map (event_pnl fees tp)).sum

/-- The grid loop of `optimize_tp_fixed_pct_for_symbol`: starting from
`best_tp = None, best_score = -inf`, each candidate replaces the incumbent
iff its `total_return` is strictly greater (`>`), so the first candidate
always replaces `-inf` and ties keep the earlier candidate. -/
def tp_step (events : List TriggerEvent) (fees : ℚ)
    (best : Option (ℚ × ℚ)) (tp : ℚ) : Option (ℚ × ℚ) :=
  match best with
  | none => some (tp, tp_total_return events fees tp)
  | some (best_tp, best_score) =>
    if best_score < tp_total_return events fees tp then
      some (tp, tp_total_return events fees tp)
    else some (best_tp, best_score)

def select_best_tp (events : List TriggerEvent) (fees : ℚ) (grid : List ℚ) :
    Option ℚ :=
  (grid.foldl (tp_step events fees) none).map Prod.fst

/-- Default grid `np.round(np.arange(0.02, 0.2001, 0.005), 3)`:
2%, 2.5%, …, 20%. -/
def default_tp_grid : List ℚ :=
  (List.range 37).map (fun k : ℕ => 1 / 50 + (k : ℚ) / 200)

/-- Model of `series.last("365D")` on a date-indexed series (dates in days,
strictly increasing): keep the entries whose date is strictly within 365
days of the last date; the empty series is returned unchanged. -/
def last365 (series : List (ℤ × ℚ)) : List (ℤ × ℚ) :=
  match series.getLast? with
  | none => []
  | some last => series.filter (fun p => decide (last.1 - 365 < p.1))

/-- Function `optimize_tp_fixed_pct_for_symbol` (lines 79-107): restrict to the last
365 calendar days, require at least `lookback_window + 30` closes, detect
the 2σ trigger events, and grid-search the take-profit candidate with the
best historical aggregate net return.  `tp_grid = none` selects the default
grid. -/
def optimize_tp_fixed_pct_for_symbol (series : List (ℤ × ℚ))
    (tp_grid : Option (List ℚ)) (lookback_window forward_days : ℕ)
    (fees : ℚ) : Option ℚ :=
  if ((last365 series).map Prod.snd).length < lookback_window + 30 then none
  else if find_signals_and_forward_path ((last365 series).map Prod.snd)
      lookback_window forward_days = [] then none
  else
    select_best_tp
      (find_signals_and_forward_path ((last365 series).map Prod.snd)
        lookback_window forward_days)
      fees (tp_grid.getD default_tp_grid)

/-! ## Point-in-time sigma (`compute_sigma`)

Identical in `TQQQ_SOXL_2sigma_alert.py` (lines 44-50) and
`TQQQ_SSO_QLD_2sigma_alert.py` (lines 76-83).  Returns the sample variance
σ² (the source returns `σ = √·`, or `None` when `NaN`/non-finite). -/

def compute_sigma (close_series : List ℚ) (window : ℕ) : Option ℚ :=
  if (pct_change close_series).length < window + 1 then none
  else
    sampleVar (((pct_change close_series).drop
      ((pct_change close_series).length - (window + 1))).dropLast)


/-! ## Loop characterizations -/

/-- The append-or-skip fold of the scan loop is a `filterMap`. -/
theorem append_signal_foldl (s : List ℚ) (W F : ℕ) :
    ∀ (l : List ℕ) (acc : List TriggerEvent),
      l.foldl (append_signal s W F) acc = acc ++ l.filterMap (signal_at s W F)
  | [], acc => by simp
  | x :: t, acc => by
    cases hg : signal_at s W F x <;>
      simp [append_signal, List.foldl_cons, hg, append_signal_foldl s W F t,
        List.filterMap_cons]

theorem find_signals_eq_filterMap (s : List ℚ) (W F : ℕ) :
    find_signals_and_forward_path s W F
      = (List.range' (W + 1) (s.length - 1 - (W + 1))).filterMap
          (signal_at s W F) := by
  unfold find_signals_and_forward_path
  rw [append_signal_foldl]
  simp

open Classical in
/-- The trigger condition of the spec, phrased with the real-valued sigma
`σ = √v`: at index `i` (for `i` ranging over `W+1 … len-2`), the
point-in-time sigma over `returns[i-W-1 : i-1]` must be defined and
positive, and `close[i] ≤ prev_close * (1 - 2σ)` with
`prev_close = close[i-1]`; the emitted event carries
`forward_prices = close[i+1 : i+1+forward_days]` clipped to the series
end. -/
noncomputable def trigger_spec_at (s : List ℚ) (W F : ℕ) (i : ℕ) :
    Option TriggerEvent :=
  match sampleVar (((pct_change s).drop (i - W - 1)).take W) with
  | none => none
  | some v =>
    if 0 < Real.sqrt (v : ℝ) ∧
        (s.getD i 0 : ℝ) ≤ (s.getD (i - 1) 0 : ℝ) * (1 - 2 * Real.sqrt (v : ℝ)) then
      some ⟨i, s.getD i 0, s.getD (i - 1) 0, v, (s.drop (i + 1)).take F⟩
    else none

/-- The rational-arithmetic scan step agrees with the real-valued spec
condition. -/
theorem signal_at_eq_spec (s : List ℚ) (W F : ℕ) (i : ℕ) :
    signal_at s W F i = trigger_spec_at s W F i := by
  unfold signal_at trigger_spec_at
  cases hv : sampleVar (((pct_change s).drop (i - W - 1)).take W) with
  | none => rfl
  | some v =>
    dsimp only
    have hv0 : 0 ≤ v := sampleVar_nonneg hv
    by_cases hvpos : v ≤ 0
    · have hns : ¬ (0 : ℝ) < Real.sqrt (v : ℝ) := by
        rw [Real.sqrt_pos]
        exact_mod_cast not_lt.mpr hvpos
      rw [if_pos hvpos, if_neg (fun h => hns h.1)]
    · have hvpos' : (0 : ℝ) < (v : ℝ) := by
        exact_mod_cast lt_of_not_le hvpos
      have hs : (0 : ℝ) < Real.sqrt (v : ℝ) := Real.sqrt_pos.mpr hvpos'
      have hcond : mulSqrtLe (2 * s.getD (i - 1) 0) v
            (s.getD (i - 1) 0 - s.getD i 0) = true
          ↔ (s.getD i 0 : ℝ)
              ≤ (s.getD (i - 1) 0 : ℝ) * (1 - 2 * Real.sqrt (v : ℝ)) := by
        rw [mulSqrtLe_iff]
        push_cast
        constructor <;> intro h <;> nlinarith [h]
      by_cases hm : mulSqrtLe (2 * s.getD (i - 1) 0) v
          (s.getD (i - 1) 0 - s.getD i 0) = true
      · rw [if_neg hvpos, if_pos hm, if_pos ⟨hs, hcond.mp hm⟩]
      · rw [if_neg hvpos, if_neg hm, if_neg (fun h => hm (hcond.mpr h.2))]

/-! ## First-maximum characterization of the grid loop -/

/-- The first element of a list attaining the maximal value of `f`,
computed against the best of the remaining elements (which wins only on a
strict improvement, mirroring `total_return > best_score`). -/
def firstArgmax (f : ℚ → ℚ) : List ℚ → Option ℚ
  | [] => none
  | x :: xs =>
    (firstArgmax f xs).elim (some x)
      (fun y => if f x < f y then some y else some x)

/-- Updating an incumbent `b` against the best of the rest of the grid. -/
def argUpd (f : ℚ → ℚ) (b : ℚ) (o : Option ℚ) : ℚ :=
  o.elim b (fun y => if f b < f y then y else b)

theorem tp_foldl_some (events : List TriggerEvent) (fees : ℚ) :
    ∀ (xs : List ℚ) (b : ℚ),
      xs.foldl (tp_step events fees)
          (some (b, tp_total_return events fees b))
        = some (argUpd (tp_total_return events fees) b
              (firstArgmax (tp_total_return events fees) xs),
            tp_total_return events fees
              (argUpd (tp_total_return events fees) b
                (firstArgmax (tp_total_return events fees) xs)))
  | [], b => by simp [argUpd, firstArgmax]
  | x :: xs, b => by
    simp only [List.foldl_cons, tp_step]
    by_cases h : tp_total_return events fees b < tp_total_return events fees x
    · rw [if_pos h, tp_foldl_some events fees xs x]
      cases hfa : firstArgmax (tp_total_return events fees) xs with
      | none =>
        simp only [firstArgmax, hfa, argUpd, Option.elim_none, Option.elim_some]
        rw [if_pos h]
      | some y =>
        simp only [firstArgmax, hfa, argUpd, Option.elim_some]
        by_cases hxy : tp_total_return events fees x < tp_total_return events fees y
        · rw [if_pos hxy, if_pos hxy]
          simp only [Option.elim_some]
          rw [if_pos (lt_trans h hxy)]
        · rw [if_neg hxy, if_neg hxy]
          simp only [Option.elim_some]
          rw [if_pos h]
    · rw [if_neg h, tp_foldl_some events fees xs b]
      cases hfa : firstArgmax (tp_total_return events fees) xs with
      | none =>
        simp only [firstArgmax, hfa, argUpd, Option.elim_none, Option.elim_some]
        rw [if_neg h]
      | some y =>
        simp only [firstArgmax, hfa, argUpd, Option.elim_some]
        by_cases hxy : tp_total_return events fees x < tp_total_return events fees y
        · rw [if_pos hxy]
          simp only [Option.elim_some]
        · rw [if_neg hxy]
          simp only [Option.elim_some]
          rw [if_neg h]
          have hyb : ¬ tp_total_return events fees b < tp_total_return events fees y :=
            fun hby => h (lt_of_lt_of_le hby (not_lt.mp hxy))
          rw [if_neg hyb]

/-- The grid loop of `optimize_tp_fixed_pct_for_symbol` returns the first
grid candidate attaining the maximal aggregate net return. -/
theorem select_best_tp_eq_firstArgmax (events : List TriggerEvent)
    (fees : ℚ) (grid : List ℚ) :
    select_best_tp events fees grid
      = firstArgmax (tp_total_return events fees) grid := by
  cases grid with
  | nil => rfl
  | cons x xs =>
    unfold select_best_tp
    rw [List.foldl_cons]
    show ((xs.foldl (tp_step events fees)
        (some (x, tp_total_return events fees x))).map Prod.fst) = _
    rw [tp_foldl_some events fees xs x]
    cases hfa : firstArgmax (tp_total_return events fees) xs with
    | none =>
      simp only [firstArgmax, hfa, argUpd, Option.elim_none, Option.elim_some,
        Option.map_some]
      rfl
    | some y =>
      simp only [firstArgmax, hfa, argUpd, Option.elim_some, Option.map_some]
      by_cases hxy : tp_total_return events fees x < tp_total_return events fees y
      · rw [if_pos hxy, if_pos hxy]
        rfl
      · rw [if_neg hxy, if_neg hxy]
        rfl

/-- Lemma: `firstArgmax` returns the first position attaining the maximum of `f`. -/
theorem firstArgmax_spec (f : ℚ → ℚ) :
    ∀ l : List ℚ, l ≠ [] →
      ∃ j, j < l.length ∧ firstArgmax f l = some (l.getD j 0) ∧
        (∀ i, i < l.length → f (l.getD i 0) ≤ f (l.getD j 0)) ∧
        (∀ i, i < j → f (l.getD i 0) < f (l.getD j 0))
  | [], h => absurd rfl h
  | x :: xs, _ => by
    by_cases hxs : xs = []
    · subst hxs
      refine ⟨0, by simp, by simp [firstArgmax], ?_, by omega⟩
      intro i hi
      have hi0 : i = 0 := by simp at hi; omega
      subst hi0
      exact le_refl _
    · obtain ⟨j, hj, hfa, hmax, hstrict⟩ := firstArgmax_spec f xs hxs
      by_cases hcmp : f x < f (xs.getD j 0)
      · refine ⟨j + 1, by simp only [List.length_cons]; omega, ?_, ?_, ?_⟩
        · simp only [firstArgmax, hfa, Option.elim_some, List.getD_cons_succ]
          rw [if_pos hcmp]
        · intro i hi
          rw [List.getD_cons_succ]
          cases i with
          | zero =>
            rw [List.getD_cons_zero]
            exact le_of_lt hcmp
          | succ i =>
            rw [List.getD_cons_succ]
            exact hmax i (by simp only [List.length_cons] at hi; omega)
        · intro i hi
          rw [List.getD_cons_succ]
          cases i with
          | zero =>
            rw [List.getD_cons_zero]
            exact hcmp
          | succ i =>
            rw [List.getD_cons_succ]
            exact hstrict i (by omega)
      · refine ⟨0, by simp only [List.length_cons]; omega, ?_, ?_, by omega⟩
        · simp only [firstArgmax, hfa, Option.elim_some, List.getD_cons_zero]
          rw [if_neg hcmp]
        · intro i hi
          rw [List.getD_cons_zero]
          cases i with
          | zero =>
            rw [List.getD_cons_zero]
          | succ i =>
            rw [List.getD_cons_succ]
            exact le_trans (hmax i (by simp only [List.length_cons] at hi; omega))
              (not_lt.mp hcmp)

/-- Membership: `l.getD j 0` is an element of `l` when `j` is in range. -/
theorem getD_mem {l : List ℚ} {j : ℕ} (hj : j < l.length) : l.getD j 0 ∈ l := by
  rw [List.getD_eq_getElem l 0 hj]
  exact List.getElem_mem hj

/-- Structure of any event produced by one scan step. -/
theorem signal_at_some {s : List ℚ} {W F i : ℕ} {ev : TriggerEvent}
    (h : signal_at s W F i = some ev) :
    ev.date = i ∧ ev.forward_high = (s.drop (i + 1)).take F := by
  unfold signal_at at h
  split at h
  · exact absurd h (by simp)
  · split at h
    · exact absurd h (by simp)
    · split at h
      · cases h
        exact ⟨rfl, rfl⟩
      · exact absurd h (by simp)

/-! ## Claim theorems -/

/-- C1: For every list of trigger events, every ascending TP grid and
every fee rate, `optimize_tp_fixed_pct_for_symbol`'s grid loop scores a
candidate `tp` by `tp_total_return` — the sum over events of `tp - 2*fees`
for events some forward price of which reaches `entry*(1+tp)`, `0` for the
others — and returns the candidate with maximal aggregate net return,
ties resolved in favour of the earliest grid position; and on the spec's
example (grid `[0.02, 0.04]`, one event with entry `100` and forward
prices `[101, 103]`, fees `0.00065`) it selects `0.02`. -/
theorem C1_tp_optimizer_selects_first_max :
    (∀ (events : List TriggerEvent) (fees : ℚ) (grid : List ℚ),
      grid ≠ [] → grid.Sorted (· ≤ ·) →
      ∃ j, j < grid.length ∧
        select_best_tp events fees grid = some (grid.getD j 0) ∧
        (∀ i, i < grid.length →
          tp_total_return events fees (grid.getD i 0)
            ≤ tp_total_return events fees (grid.getD j 0)) ∧
        (∀ i, i < j →
          tp_total_return events fees (grid.getD i 0)
            < tp_total_return events fees (grid.getD j 0))) ∧
    select_best_tp [⟨0, 100, 100, 0, [101, 103]⟩] (13 / 20000)
        [1 / 50, 1 / 25] = some (1 / 50) := by
  constructor
  · intro events fees grid hne _
    obtain ⟨j, hj, hfa, hmax, hstrict⟩ :=
      firstArgmax_spec (tp_total_return events fees) grid hne
    exact ⟨j, hj, by rw [select_best_tp_eq_firstArgmax, hfa], hmax, hstrict⟩
  · norm_num [select_best_tp, tp_step, tp_total_return, event_pnl, event_hit]

theorem C1_witness :
    (([1 / 50, 1 / 25] : List ℚ) ≠ [] ∧
        ([1 / 50, 1 / 25] : List ℚ).Sorted (· ≤ ·)) ∧
      ∃ j, j < ([1 / 50, 1 / 25] : List ℚ).length ∧
        select_best_tp [⟨0, 100, 100, 0, [101, 103]⟩] (13 / 20000)
            [1 / 50, 1 / 25]
          = some (([1 / 50, 1 / 25] : List ℚ).getD j 0) ∧
        (∀ i, i < ([1 / 50, 1 / 25] : List ℚ).length →
          tp_total_return [⟨0, 100, 100, 0, [101, 103]⟩] (13 / 20000)
              (([1 / 50, 1 / 25] : List ℚ).getD i 0)
            ≤ tp_total_return [⟨0, 100, 100, 0, [101, 103]⟩] (13 / 20000)
              (([1 / 50, 1 / 25] : List ℚ).getD j 0)) ∧
        (∀ i, i < j →
          tp_total_return [⟨0, 100, 100, 0, [101, 103]⟩] (13 / 20000)
              (([1 / 50, 1 / 25] : List ℚ).getD i 0)
            < tp_total_return [⟨0, 100, 100, 0, [101, 103]⟩] (13 / 20000)
              (([1 / 50, 1 / 25] : List ℚ).getD j 0)) :=
  ⟨⟨by simp, by norm_num [List.sorted_cons]⟩,
    C1_tp_optimizer_selects_first_max.1 [⟨0, 100, 100, 0, [101, 103]⟩]
      (13 / 20000) [1 / 50, 1 / 25] (by simp)
      (by norm_num [List.sorted_cons])⟩

/-- C2: For every price series, window `W` and `forward_days`, the
trigger extraction emits, for `i` ranging over `W+1 … len-2` in
chronological order, exactly the events allowed by the spec condition
(point-in-time sigma over `returns[i-W-1 : i-1]` defined and positive, and
`close[i] ≤ prev_close * (1 - 2σ)` for the configured multiple `k = 2`),
each carrying `forward_prices = close[i+1 : i+1+forward_days]` clipped to
the series end; indices with undefined or non-positive sigma are
skipped. -/
theorem C2_trigger_event_extraction (s : List ℚ) (W F : ℕ) :
    find_signals_and_forward_path s W F
      = (List.range' (W + 1) (s.length - 1 - (W + 1))).filterMap
          (trigger_spec_at s W F) := by
  rw [find_signals_eq_filterMap]
  rw [show signal_at s W F = trigger_spec_at s W F from
    funext (signal_at_eq_spec s W F)]

/-- C7: For a single event whose forward prices reach the take-profit
target at every grid candidate, the grid search selects the largest TP
value of the grid (the aggregate `tp - 2*fees` is strictly increasing in
`tp` when the hit set is constant). -/
theorem C7_always_hit_selects_largest_tp :
    ∀ (ev : TriggerEvent) (fees : ℚ) (grid : List ℚ), grid ≠ [] →
      (∀ tp ∈ grid, event_hit ev tp = true) →
      ∃ c, select_best_tp [ev] fees grid = some c ∧ c ∈ grid ∧
        ∀ tp ∈ grid, tp ≤ c := by
  intro ev fees grid hne hhit
  obtain ⟨j, hj, hfa, hmax, _⟩ :=
    firstArgmax_spec (tp_total_return [ev] fees) grid hne
  have hscore : ∀ tp ∈ grid, tp_total_return [ev] fees tp = tp - 2 * fees := by
    intro tp htp
    simp [tp_total_return, event_pnl, hhit tp htp]
  have hcmem : grid.getD j 0 ∈ grid := getD_mem hj
  refine ⟨grid.getD j 0, by rw [select_best_tp_eq_firstArgmax, hfa], hcmem, ?_⟩
  intro tp htp
  obtain ⟨i, hi, hieq⟩ := List.mem_iff_getElem.mp htp
  have h1 := hmax i hi
  rw [List.getD_eq_getElem grid 0 hi, hieq] at h1
  rw [hscore tp htp, hscore _ hcmem] at h1
  linarith

theorem C7_witness :
    ∃ c, select_best_tp [⟨0, 100, 100, 0, [200]⟩] (13 / 20000)
          [1 / 50, 1 / 25] = some c ∧
        c ∈ ([1 / 50, 1 / 25] : List ℚ) ∧
        ∀ tp ∈ ([1 / 50, 1 / 25] : List ℚ), tp ≤ c :=
  C7_always_hit_selects_largest_tp ⟨0, 100, 100, 0, [200]⟩ (13 / 20000)
    [1 / 50, 1 / 25] (by simp)
    (by
      intro tp htp
      simp only [List.mem_cons, List.not_mem_nil, or_false] at htp
      rcases htp with rfl | rfl
      · norm_num [event_hit]
      · norm_num [event_hit])

/-- C6: `optimize_tp_fixed_pct_for_symbol` returns `none` whenever the
detected event set is empty or the series restricted to the last 365
calendar days is shorter than `lookback_window + 30` closes (code margin
30); in every other case (with the default grid) it returns some candidate
of the grid.  The embedding is a total function, so no exception can
occur. -/
theorem C6_tp_optimizer_none_or_grid_member :
    ∀ (series : List (ℤ × ℚ)) (W F : ℕ) (fees : ℚ),
      ((((last365 series).map Prod.snd).length < W + 30 ∨
          find_signals_and_forward_path ((last365 series).map Prod.snd) W F
            = []) →
        optimize_tp_fixed_pct_for_symbol series none W F fees = none) ∧
      (W + 30 ≤ ((last365 series).map Prod.snd).length →
        find_signals_and_forward_path ((last365 series).map Prod.snd) W F
          ≠ [] →
        ∃ tp, optimize_tp_fixed_pct_for_symbol series none W F fees = some tp
          ∧ tp ∈ default_tp_grid) := by
  intro series W F fees
  constructor
  · rintro (hshort | hempty)
    · unfold optimize_tp_fixed_pct_for_symbol
      rw [if_pos hshort]
    · unfold optimize_tp_fixed_pct_for_symbol
      by_cases hshort : ((last365 series).map Prod.snd).length < W + 30
      · rw [if_pos hshort]
      · rw [if_neg hshort, if_pos hempty]
  · intro hlen hne
    unfold optimize_tp_fixed_pct_for_symbol
    rw [if_neg (not_lt.mpr hlen), if_neg hne]
    have hg : (default_tp_grid : List ℚ) ≠ [] := by
      intro h
      have h0 := congrArg List.length h
      simp only [default_tp_grid, List.length_map, List.length_range,
        List.length_nil] at h0
      omega
    obtain ⟨j, hj, hfa, _, _⟩ := firstArgmax_spec
      (tp_total_return
        (find_signals_and_forward_path ((last365 series).map Prod.snd) W F)
        fees)
      default_tp_grid hg
    refine ⟨default_tp_grid.getD j 0, ?_, getD_mem hj⟩
    simp only [Option.getD_none]
    rw [select_best_tp_eq_firstArgmax, hfa]

/-- Concrete 32-day series for the `C6` witness: alternating 100/101
closes, then a crash to 50 on day 30. -/
def c6_series : List (ℤ × ℚ) :=
  [(1, 100), (2, 101), (3, 100), (4, 101), (5, 100), (6, 101), (7, 100),
   (8, 101), (9, 100), (10, 101), (11, 100), (12, 101), (13, 100), (14, 101),
   (15, 100), (16, 101), (17, 100), (18, 101), (19, 100), (20, 101),
   (21, 100), (22, 101), (23, 100), (24, 101), (25, 100), (26, 101),
   (27, 100), (28, 101), (29, 100), (30, 50), (31, 50), (32, 50)]

theorem c6_last365 : (last365 c6_series).map Prod.snd = [100, 101, 100, 101, 100, 101, 100, 101, 100, 101, 100, 101, 100, 101, 100, 101, 100, 101, 100, 101, 100, 101, 100, 101, 100, 101, 100, 101, 100, 50, 50, 50] := by
  norm_num [c6_series, last365, List.getLast?, List.getLast]

theorem c6_ret : pct_change [100, 101, 100, 101, 100, 101, 100, 101, 100, 101, 100, 101, 100, 101, 100, 101, 100, 101, 100, 101, 100, 101, 100, 101, 100, 101, 100, 101, 100, 50, 50, 50] = [1 / 100, -1 / 101, 1 / 100, -1 / 101, 1 / 100, -1 / 101, 1 / 100, -1 / 101, 1 / 100, -1 / 101, 1 / 100, -1 / 101, 1 / 100, -1 / 101, 1 / 100, -1 / 101, 1 / 100, -1 / 101, 1 / 100, -1 / 101, 1 / 100, -1 / 101, 1 / 100, -1 / 101, 1 / 100, -1 / 101, 1 / 100, -1 / 101, -1 / 2, 0, 0] := by
  norm_num [pct_change]

set_option maxHeartbeats 2000000 in
theorem c6_events : find_signals_and_forward_path [100, 101, 100, 101, 100, 101, 100, 101, 100, 101, 100, 101, 100, 101, 100, 101, 100, 101, 100, 101, 100, 101, 100, 101, 100, 101, 100, 101, 100, 50, 50, 50] 2 1
    = [⟨29, 50, 100, 40401 / 204020000, [50]⟩] := by
  norm_num [find_signals_and_forward_path, append_signal, signal_at, c6_ret,
    sampleVar, listMean, mulSqrtLe, sqrtLe, sqrtGe, List.range']

theorem C6_witness :
    (2 + 30 ≤ ((last365 c6_series).map Prod.snd).length ∧
      find_signals_and_forward_path ((last365 c6_series).map Prod.snd) 2 1
        ≠ []) ∧
    ∃ tp, optimize_tp_fixed_pct_for_symbol c6_series none 2 1 (13 / 20000)
        = some tp ∧ tp ∈ default_tp_grid :=
  ⟨⟨by rw [c6_last365]; norm_num,
    by rw [c6_last365, c6_events]; simp⟩,
    (C6_tp_optimizer_none_or_grid_member c6_series 2 1 (13 / 20000)).2
      (by rw [c6_last365]; norm_num)
      (by rw [c6_last365, c6_events]; simp)⟩

/-- C10, counterexample: With `forward_days = 0` the extraction emits
an event (at index 3 of the series `[100, 101, 100, 50, 50]` with window
`W = 2`) whose forward-price list is empty, so the claimed lower bound
`1 ≤ forward_prices.length` fails for an emitted event. -/
theorem C10_counterexample :
    (find_signals_and_forward_path [100, 101, 100, 50, 50] 2 0).length = 1 ∧
    (find_signals_and_forward_path [100, 101, 100, 50, 50] 2 0).all
        (fun ev => decide (1 ≤ ev.forward_high.length)) = false := by
  have h : find_signals_and_forward_path [100, 101, 100, 50, 50] 2 0
      = [⟨3, 50, 100, 40401 / 204020000, []⟩] := by
    norm_num [find_signals_and_forward_path, append_signal, signal_at,
      sampleVar, listMean, pct_change, mulSqrtLe, sqrtLe, sqrtGe, List.range']
  rw [h]
  constructor
  · rfl
  · rfl

/-- C10, amended: Every event emitted by the trigger extraction has
`forward_prices = close[date+1 : date+1+forward_days]` (clipped to the
series end), hence drawn exclusively from closes strictly after the
trigger day; its length is at most `forward_days`, and at least `1`
provided `forward_days ≥ 1` (for `forward_days = 0` it is empty), because
the scan stops at index `len - 2`. -/
theorem C10_forward_window_amended :
    ∀ (s : List ℚ) (W F : ℕ) (ev : TriggerEvent),
      ev ∈ find_signals_and_forward_path s W F →
      W + 1 ≤ ev.date ∧ ev.date + 2 ≤ s.length ∧
      ev.forward_high = (s.drop (ev.date + 1)).take F ∧
      ev.forward_high.length ≤ F ∧
      (1 ≤ F → 1 ≤ ev.forward_high.length) := by
  intro s W F ev hmem
  rw [find_signals_eq_filterMap] at hmem
  obtain ⟨i, hi, hsig⟩ := List.mem_filterMap.mp hmem
  obtain ⟨hdate, hfwd⟩ := signal_at_some hsig
  have hir := List.mem_range'_1.mp hi
  have hd2 : i + 2 ≤ s.length := by omega
  have hlen : ev.forward_high.length = min F (s.length - (i + 1)) := by
    rw [hfwd, List.length_take, List.length_drop]
  refine ⟨by omega, by omega, by rw [hdate, hfwd], by omega, by omega⟩

theorem C10_witness :
    (⟨3, 50, 100, 40401 / 204020000, [60]⟩ : TriggerEvent)
        ∈ find_signals_and_forward_path [100, 101, 100, 50, 60] 2 1 ∧
      (2 + 1 ≤ (⟨3, 50, 100, 40401 / 204020000, [60]⟩ : TriggerEvent).date ∧
        (⟨3, 50, 100, 40401 / 204020000, [60]⟩ : TriggerEvent).date + 2
          ≤ ([100, 101, 100, 50, 60] : List ℚ).length ∧
        (⟨3, 50, 100, 40401 / 204020000, [60]⟩ : TriggerEvent).forward_high
          = (([100, 101, 100, 50, 60] : List ℚ).drop
              ((⟨3, 50, 100, 40401 / 204020000, [60]⟩ : TriggerEvent).date
                + 1)).take 1 ∧
        (⟨3, 50, 100, 40401 / 204020000, [60]⟩ :
            TriggerEvent).forward_high.length ≤ 1 ∧
        (1 ≤ 1 → 1 ≤ (⟨3, 50, 100, 40401 / 204020000, [60]⟩ :
            TriggerEvent).forward_high.length)) :=
  have hmem : (⟨3, 50, 100, 40401 / 204020000, [60]⟩ : TriggerEvent)
      ∈ find_signals_and_forward_path [100, 101, 100, 50, 60] 2 1 := by
    have h : find_signals_and_forward_path [100, 101, 100, 50, 60] 2 1
        = [⟨3, 50, 100, 40401 / 204020000, [60]⟩] := by
      norm_num [find_signals_and_forward_path, append_signal, signal_at,
        sampleVar, listMean, pct_change, mulSqrtLe, sqrtLe, sqrtGe,
        List.range']
    rw [h]
    exact List.mem_singleton.mpr rfl
  ⟨hmem, C10_forward_window_amended [100, 101, 100, 50, 60] 2 1
    ⟨3, 50, 100, 40401 / 204020000, [60]⟩ hmem⟩

/-- C4: `compute_sigma` (point-in-time mode): whenever the derived
return series has fewer than `window + 1` entries the result is `none`
(undefined) — the embedding is a total function, so no exception can
occur and no numeric value is produced; with at least `window + 1`
returns, the result is the sample variance of the `window` returns
immediately preceding today (`returns[-window-1 : -1]`), whose square
root is the source's sample standard deviation. -/
theorem C4_compute_sigma_point_in_time :
    ∀ (s : List ℚ) (window : ℕ),
      ((pct_change s).length < window + 1 → compute_sigma s window = none) ∧
      (window + 1 ≤ (pct_change s).length →
        compute_sigma s window
          = sampleVar (((pct_change s).drop
              ((pct_change s).length - (window + 1))).take window)) := by
  intro s window
  constructor
  · intro h
    unfold compute_sigma
    rw [if_pos h]
  · intro h
    unfold compute_sigma
    rw [if_neg (not_lt.mpr h)]
    congr 1
    rw [List.dropLast_eq_take, List.length_drop]
    congr 1
    omega

theorem C4_witness :
    ((pct_change [1, 2, 3]).length < 252 + 1 ∧
      compute_sigma [1, 2, 3] 252 = none) ∧
    (2 + 1 ≤ (pct_change [100, 101, 100, 50, 50]).length ∧
      compute_sigma [100, 101, 100, 50, 50] 2
        = sampleVar (((pct_change [100, 101, 100, 50, 50]).drop
            ((pct_change [100, 101, 100, 50, 50]).length - (2 + 1))).take 2)) :=
  ⟨⟨by norm_num [pct_change],
    (C4_compute_sigma_point_in_time [1, 2, 3] 252).1 (by norm_num [pct_change])⟩,
   ⟨by norm_num [pct_change],
    (C4_compute_sigma_point_in_time [100, 101, 100, 50, 50] 2).2
      (by norm_num [pct_change])⟩⟩

/-! ## Alert composers (decision rule and labels)

The composers receive an already-computed, defined sigma as a plain
number; here it is a parameter `sigma : ℚ`. -/

/-- From `SOXL_1sigma_alert.py` lines 106-107: `ret_today = current/prev - 1`,
`condition_met = ret_today <= -sigma`. -/
def soxl_condition_met (prev_close current_price sigma : ℚ) : Bool :=
  decide (current_price / prev_close - 1 ≤ -sigma)

/-- From `SOXL_1sigma_alert.py` line 109: displayed threshold price
`prev_close * (1 - sigma)`. -/
def sigma_down_price (prev_close sigma : ℚ) : ℚ :=
  prev_close * (1 - sigma)

/-- From `TQQQ_SOXL_2sigma_alert.py` lines 133-137 and
`TQQQ_SSO_QLD_2sigma_alert.py` lines 153-158:
`buy_signal = current_price <= prev_close * (1 - 2*sigma)`. -/
def tqqq_buy_signal (prev_close current_price sigma : ℚ) : Bool :=
  decide (current_price ≤ prev_close * (1 - 2 * sigma))

/-- C5: For every defined sigma and positive prices, the composers'
condition is met iff `current <= prev * (1 - k*sigma)` for the configured
multiple (`k = 1` in the SOXL 1σ variant, stated there as
`current/prev - 1 <= -sigma`; `k = 2` in the 2σ variants); and on the
spec's example (`prev = 100`, `current = 95`, `k = 1`, `sigma = 0.05`) the
threshold price is `95.0` and the boundary case counts as met. -/
theorem C5_condition_met_iff_threshold :
    (∀ prev current sigma : ℚ, 0 < prev → 0 < current →
      (soxl_condition_met prev current sigma = true
        ↔ current ≤ prev * (1 - sigma)) ∧
      (tqqq_buy_signal prev current sigma = true
        ↔ current ≤ prev * (1 - 2 * sigma))) ∧
    (sigma_down_price 100 (1 / 20) = 95 ∧
      soxl_condition_met 100 95 (1 / 20) = true) := by
  constructor
  · intro prev current sigma hprev _
    constructor
    · simp only [soxl_condition_met, decide_eq_true_eq]
      constructor
      · intro h
        have h2 : current / prev ≤ 1 - sigma := by linarith
        rw [div_le_iff₀ hprev] at h2
        nlinarith [h2]
      · intro h
        have h2 : current ≤ (1 - sigma) * prev := by nlinarith [h]
        rw [← div_le_iff₀ hprev] at h2
        linarith
    · simp only [tqqq_buy_signal, decide_eq_true_eq]
  · constructor
    · norm_num [sigma_down_price]
    · norm_num [soxl_condition_met]

theorem C5_witness :
    ((0 : ℚ) < 100 ∧ (0 : ℚ) < 95) ∧
    ((soxl_condition_met 100 95 (1 / 20) = true
        ↔ (95 : ℚ) ≤ 100 * (1 - 1 / 20)) ∧
      (tqqq_buy_signal 100 95 (1 / 20) = true
        ↔ (95 : ℚ) ≤ 100 * (1 - 2 * (1 / 20)))) :=
  ⟨⟨by norm_num, by norm_num⟩,
    C5_condition_met_iff_threshold.1 100 95 (1 / 20) (by norm_num)
      (by norm_num)⟩

/-! ## Rolling sigma and the annualized event-frequency statistic

`calc_sigma_and_trades`, from `SOXL_1sigma_alert.py` lines 53-79;
`QLD_1sigma_alert.py` lines 59-79 performs the same trades computation
with a five-year tail (`tail_n = 1260` instead of `252`).  Both scripts
fix `window = 252` and `min_periods = 120`; they are parameters here. -/

/-- Model of `pandas` `Series.rolling(window, min_periods).std()` at position `t`,
squared: the sample variance of the trailing `window` values ending at
*and including* position `t`; `NaN` (`none`) when the window holds fewer
than `min_periods` observations (a sample std additionally needs two
values; `sampleVar`'s guard supplies that `NaN` when
`min_periods < 2`). -/
def rollingVar (window min_periods : ℕ) (vals : List ℚ) (t : ℕ) :
    Option ℚ :=
  if ((vals.take (t + 1)).drop (t + 1 - window)).length < min_periods
  then none
  else sampleVar ((vals.take (t + 1)).drop (t + 1 - window))

/-- Python's built-in `round` to an integer: nearest integer, halves to
the even neighbour. -/
def pyRound (q : ℚ) : ℤ :=
  if q - ⌊q⌋ < 1 / 2 then ⌊q⌋
  else if 1 / 2 < q - ⌊q⌋ then ⌊q⌋ + 1
  else if ⌊q⌋ % 2 = 0 then ⌊q⌋ else ⌊q⌋ + 1

/-- Count `total_events`: the mask count over the tail window
(`ret_1y = rr.tail(tail_n)`, `vol_1y = vol_roll.reindex(ret_1y.index)`,
mask `= ~ret.isna & ~vol.isna & (vol > 0) & (ret <= -vol)`); positions are
absolute so that the reindexed rolling sigma aligns with the tail day.
`ret ≤ -√v` is evaluated as `sqrtLe v (-ret)`. -/
def total_events (window min_periods tail_n : ℕ)
    (rr : List (ℤ × ℚ)) : ℕ :=
  (((List.range rr.length).zip rr).drop (rr.length - tail_n)).countP
    (fun pi =>
      match rollingVar window min_periods (rr.map Prod.snd) pi.1 with
      | none => false
      | some v => decide (0 < v) && sqrtLe v (-pi.2.2))

/-- Elapsed calendar years of the tail window:
`(index[-1] - index[0]).days / 365.25` when the tail has more than one
row, else `0`. -/
def tail_years (tail_n : ℕ) (rr : List (ℤ × ℚ)) : ℚ :=
  match rr.drop (rr.length - tail_n) with
  | [] => 0
  | [_] => 0
  | x :: y :: rest => ((((y :: rest).getLastD y).1 - x.1 : ℤ) : ℚ) * 4 / 1461

/-- Rate `annual_events = total_events / years if years > 0 else 0.0`. -/
def annual_events_rate (window min_periods tail_n : ℕ)
    (rr : List (ℤ × ℚ)) : ℚ :=
  if 0 < tail_years tail_n rr then
    (total_events window min_periods tail_n rr : ℚ) / tail_years tail_n rr
  else 0

/-- Per-ticker body of `calc_sigma_and_trades`: headline sigma (squared;
the last value of the rolling sigma series, `none` for `NaN`) and the
rounded annualized event count.  An empty return series yields
`(NaN, 0)`. -/
def calc_sigma_and_trades (window min_periods tail_n : ℕ)
    (rr : List (ℤ × ℚ)) : Option ℚ × ℤ :=
  if rr = [] then (none, 0)
  else
    (rollingVar window min_periods (rr.map Prod.snd) (rr.length - 1),
      pyRound (annual_events_rate window min_periods tail_n rr))

/-- Modelled from the claim's words: the rolling sigma "known at time t,
computed excluding day t itself" — the trailing `window` returns strictly
before position `t`, undefined when fewer than `min_periods`. -/
def rollingVarExcl (window min_periods : ℕ) (vals : List ℚ) (t : ℕ) :
    Option ℚ :=
  if ((vals.take t).drop (t - window)).length < min_periods then none
  else sampleVar ((vals.take t).drop (t - window))

/-- Modelled from the claim (C3) as stated: count the tail days with
`return[t] <= -sigma_rolling[t]` for a sigma excluding day `t` itself,
divide by the elapsed calendar years of the window, round to an
integer. -/
def claim_trades (window min_periods tail_n : ℕ)
    (rr : List (ℤ × ℚ)) : ℤ :=
  pyRound (if 0 < tail_years tail_n rr then
    (((((List.range rr.length).zip rr).drop (rr.length - tail_n)).countP
      (fun pi =>
        match rollingVarExcl window min_periods (rr.map Prod.snd) pi.1 with
        | none => false
        | some v => decide (0 < v) && sqrtLe v (-pi.2.2)) : ℕ) : ℚ)
      / tail_years tail_n rr
  else 0)

/-- The spec-level reading of the code's frequency statistic, with the
real-valued sigma `σ = √v`: count tail days whose trailing rolling sigma
(window *including* the day itself) is defined and positive and whose
return is at or below `-σ`; divide by the elapsed years of the tail
window; round. -/
noncomputable def freq_trades_spec (window min_periods tail_n : ℕ)
    (rr : List (ℤ × ℚ)) : ℤ :=
  if rr = [] then 0
  else
    pyRound (if 0 < tail_years tail_n rr then
      (((((List.range rr.length).zip rr).drop (rr.length - tail_n)).countP
        (fun pi =>
          match rollingVar window min_periods (rr.map Prod.snd) pi.1 with
          | none => false
          | some v =>
            decide (0 < Real.sqrt (v : ℝ)) &&
              decide ((pi.2.2 : ℝ) ≤ -Real.sqrt (v : ℝ))) : ℕ) : ℚ)
        / tail_years tail_n rr
    else 0)

/-- A defined rolling variance is nonnegative. -/
theorem rollingVar_nonneg {window min_periods : ℕ} {vals : List ℚ} {t : ℕ}
    {v : ℚ} (h : rollingVar window min_periods vals t = some v) : 0 ≤ v := by
  unfold rollingVar at h
  split at h
  · exact absurd h (by simp)
  · exact sampleVar_nonneg h

/-- C3, counterexample: On the three-day return series
`[(0, 1), (1, -5), (2, 0)]` with `window = 3`, `min_periods = 2`,
`tail_n = 10`: the code counts day 1 (its rolling sigma *includes* day 1,
`σ = √18 ≈ 4.24`, and `-5 ≤ -4.24`), giving `round(1/(2/365.25)) = 183`
trades, while the claim's exclusive sigma is undefined on day 1 (only one
prior return), giving `0`. -/
theorem C3_counterexample :
    (calc_sigma_and_trades 3 2 10 [(0, 1), (1, -5), (2, 0)]).2 = 183 ∧
    claim_trades 3 2 10 [(0, 1), (1, -5), (2, 0)] = 0 := by
  have hne : ([(0, 1), (1, -5), (2, 0)] : List (ℤ × ℚ)) ≠ [] := by simp
  constructor
  · unfold calc_sigma_and_trades
    rw [if_neg hne]
    norm_num [annual_events_rate, total_events, tail_years, rollingVar,
      sampleVar, listMean, sqrtLe, pyRound, List.range_succ, List.getLastD]
  · norm_num [claim_trades, annual_events_rate, tail_years, rollingVarExcl,
      sampleVar, listMean, sqrtLe, pyRound, List.range_succ, List.getLastD]

/-- C3, amended: For every return series, the trades statistic of
`calc_sigma_and_trades` equals the spec-level count of tail days whose
trailing rolling sigma — computed *including* day `t` — is defined and
positive and whose return is `≤ -σ`, divided by the elapsed calendar
years of the tail window (days with undefined sigma still span the
window) and rounded to an integer (halves to even). -/
theorem C3_frequency_statistic_amended :
    ∀ (window min_periods tail_n : ℕ) (rr : List (ℤ × ℚ)),
      (calc_sigma_and_trades window min_periods tail_n rr).2
        = freq_trades_spec window min_periods tail_n rr := by
  intro w mp tn rr
  unfold calc_sigma_and_trades freq_trades_spec
  by_cases hne : rr = []
  · rw [if_pos hne, if_pos hne]
  · rw [if_neg hne, if_neg hne]
    dsimp only
    have hc : total_events w mp tn rr
        = (((List.range rr.length).zip rr).drop (rr.length - tn)).countP
            (fun pi =>
              match rollingVar w mp (rr.map Prod.snd) pi.1 with
              | none => false
              | some v =>
                decide (0 < Real.sqrt (v : ℝ)) &&
                  decide ((pi.2.2 : ℝ) ≤ -Real.sqrt (v : ℝ))) := by
      unfold total_events
      apply List.countP_congr
      intro pi _
      cases hv : rollingVar w mp (rr.map Prod.snd) pi.1 with
      | none => simp
      | some v =>
        have hv0 : (0 : ℝ) ≤ (v : ℝ) := by
          exact_mod_cast rollingVar_nonneg hv
        simp only [Bool.and_eq_true, decide_eq_true_eq]
        constructor
        · rintro ⟨h1, h2⟩
          refine ⟨Real.sqrt_pos.mpr (by exact_mod_cast h1), ?_⟩
          have h3 := (sqrtLe_iff v (-pi.2.2)).mp h2
          push_cast at h3
          linarith
        · rintro ⟨h1, h2⟩
          refine ⟨by exact_mod_cast Real.sqrt_pos.mp h1, ?_⟩
          rw [sqrtLe_iff]
          push_cast
          linarith
    rw [annual_events_rate, hc]

/-! ## Multi-ticker report builder (`build_alert_messages`)

From `TQQQ_SOXL_2sigma_alert.py` lines 121-151 (the builder of
`TQQQ_SSO_QLD_2sigma_alert.py`, lines 137-171, degrades the same way with
a combined sigma/price "unavailable" message).  Text formatting is
presentation; the embedding keeps the numeric fields and the degraded
entry kinds. -/

inductive Report where
  /-- Degraded entry: ticker column missing or its series empty
  (`"… 데이터 누락으로 분석 불가"`). -/
  | dataMissing (symbol : String)
  /-- Degraded entry: previous/current price or sigma undefined
  (`"… 시그마 계산 불가 (데이터 부족)"`). -/
  | sigmaUnavailable (symbol : String)
  /-- Well-formed per-ticker alert with its numeric fields;
  `buy_signal = current ≤ prev*(1 - 2σ)` for `σ = √sigma_sq`. -/
  | alert (symbol : String) (prev_close current_price sigma_sq : ℚ)
      (buy_signal : Bool) (optimal_tp : Option ℚ)
deriving DecidableEq

/-- Function `get_prev_and_current_price` (`TQQQ_SOXL_2sigma_alert.py` lines
110-118): last two closes of the ticker's (`dropna`'d) series; `none`
models the `(None, None)` result for fewer than two closes. -/
def get_prev_and_current_price (s : List ℚ) : Option (ℚ × ℚ) :=
  if s.length < 2 then none
  else some (s.getD (s.length - 2) 0, s.getD (s.length - 1) 0)

/-- Per-ticker body of the `build_alert_messages` loop: missing/empty
data and undefined prices/sigma produce degraded entries (`continue` with
an error message in the source); otherwise the alert entry is built from
the same series. -/
def report_for_symbol (W F : ℕ) (fees : ℚ)
    (data : String → Option (List (ℤ × ℚ))) (symbol : String) : Report :=
  match data symbol with
  | none => .dataMissing symbol
  | some series =>
    if series.isEmpty then .dataMissing symbol
    else
      match get_prev_and_current_price (series.map Prod.snd),
          compute_sigma (series.map Prod.snd) W with
      | some (prev, current), some v =>
        .alert symbol prev current v
          (mulSqrtLe (2 * prev) v (prev - current))
          (optimize_tp_fixed_pct_for_symbol series none W F fees)
      | _, _ => .sigmaUnavailable symbol

/-- Function `build_alert_messages`: one entry appended per configured ticker, in
order. -/
def build_alert_messages (W F : ℕ) (fees : ℚ) (tickers : List String)
    (data : String → Option (List (ℤ × ℚ))) : List Report :=
  tickers.foldl
    (fun messages symbol =>
      messages ++ [report_for_symbol W F fees data symbol])
    []

theorem build_alert_messages_eq_map (W F : ℕ) (fees : ℚ)
    (tickers : List String) (data : String → Option (List (ℤ × ℚ))) :
    build_alert_messages W F fees tickers data
      = tickers.map (report_for_symbol W F fees data) := by
  unfold build_alert_messages
  suffices h : ∀ (l : List String) (acc : List Report),
      l.foldl (fun m s => m ++ [report_for_symbol W F fees data s]) acc
        = acc ++ l.map (report_for_symbol W F fees data) by
    simpa using h tickers []
  intro l
  induction l with
  | nil => simp
  | cons x t ih =>
    intro acc
    simp [List.foldl_cons, ih]

/-- C8: the multi-ticker report builder is a total function producing one
entry per configured ticker; the entry at position `k` depends only on
ticker `k`'s data (so one ticker's failure cannot prevent the others'
well-formed entries); a ticker whose data is missing or empty gets the
degraded `dataMissing` entry, and one whose prices or sigma are undefined
gets the degraded `sigmaUnavailable` entry, instead of an exception. -/
theorem C8_report_builder_total_and_isolated :
    ∀ (W F : ℕ) (fees : ℚ) (tickers : List String)
      (data : String → Option (List (ℤ × ℚ))),
      (build_alert_messages W F fees tickers data).length = tickers.length ∧
      ∀ k, k < tickers.length →
        (build_alert_messages W F fees tickers data).getD k
            (.dataMissing "")
          = report_for_symbol W F fees data (tickers.getD k "") ∧
        ((data (tickers.getD k "") = none ∨
            data (tickers.getD k "") = some []) →
          (build_alert_messages W F fees tickers data).getD k
              (.dataMissing "")
            = .dataMissing (tickers.getD k "")) ∧
        (∀ series, data (tickers.getD k "") = some series → series ≠ [] →
          (get_prev_and_current_price (series.map Prod.snd) = none ∨
            compute_sigma (series.map Prod.snd) W = none) →
          (build_alert_messages W F fees tickers data).getD k
              (.dataMissing "")
            = .sigmaUnavailable (tickers.getD k "")) := by
  intro W F fees tickers data
  rw [build_alert_messages_eq_map]
  refine ⟨List.length_map _ _, ?_⟩
  intro k hk
  have hk' : k < (tickers.map (report_for_symbol W F fees data)).length := by
    rw [List.length_map]
    exact hk
  have hget : (tickers.map (report_for_symbol W F fees data)).getD k
      (.dataMissing "")
      = report_for_symbol W F fees data (tickers.getD k "") := by
    rw [List.getD_eq_getElem _ _ hk', List.getElem_map,
      List.getD_eq_getElem _ _ hk]
  refine ⟨hget, ?_, ?_⟩
  · rintro (hmiss | hempty)
    · rw [hget]
      unfold report_for_symbol
      rw [hmiss]
    · rw [hget]
      unfold report_for_symbol
      rw [hempty]
      rfl
  · intro series hsome hne hundef
    rw [hget]
    unfold report_for_symbol
    rw [hsome]
    dsimp only
    have hE : series.isEmpty = false := by
      simpa [List.isEmpty_iff] using hne
    rw [if_neg (by simp [hE])]
    cases hp : get_prev_and_current_price (series.map Prod.snd) with
    | none =>
      cases hs : compute_sigma (series.map Prod.snd) W <;> rfl
    | some pc =>
      cases hs : compute_sigma (series.map Prod.snd) W with
      | none =>
        cases pc
        rfl
      | some v =>
        rcases hundef with h | h
        · rw [hp] at h
          cases h
        · rw [hs] at h
          cases h

/-- Data assignment for the `C8` witness: the SOXL column is missing. -/
def c8_data : String → Option (List (ℤ × ℚ)) :=
  fun s => if s = "SOXL" then none else some [(0, 100), (1, 101)]

theorem C8_witness :
    1 < (["TQQQ", "SOXL"] : List String).length ∧
    ((build_alert_messages 252 20 (13 / 20000) ["TQQQ", "SOXL"]
          c8_data).getD 1 (.dataMissing "")
        = report_for_symbol 252 20 (13 / 20000) c8_data
            ((["TQQQ", "SOXL"] : List String).getD 1 "") ∧
      ((c8_data ((["TQQQ", "SOXL"] : List String).getD 1 "") = none ∨
          c8_data ((["TQQQ", "SOXL"] : List String).getD 1 "") = some []) →
        (build_alert_messages 252 20 (13 / 20000) ["TQQQ", "SOXL"]
            c8_data).getD 1 (.dataMissing "")
          = .dataMissing ((["TQQQ", "SOXL"] : List String).getD 1 "")) ∧
      (∀ series,
        c8_data ((["TQQQ", "SOXL"] : List String).getD 1 "") = some series →
        series ≠ [] →
        (get_prev_and_current_price (series.map Prod.snd) = none ∨
          compute_sigma (series.map Prod.snd) 252 = none) →
        (build_alert_messages 252 20 (13 / 20000) ["TQQQ", "SOXL"]
            c8_data).getD 1 (.dataMissing "")
          = .sigmaUnavailable ((["TQQQ", "SOXL"] : List String).getD 1 ""))) :=
  ⟨by norm_num,
    (C8_report_builder_total_and_isolated 252 20 (13 / 20000)
      ["TQQQ", "SOXL"] c8_data).2 1 (by norm_num)⟩

/-! ## Which thresholds the composers actually evaluate -/

inductive SignalLabel where
  | no
  | oneSigma
  | twoSigma
deriving DecidableEq

/-- The affirmative/negative label of `QLD_1sigma_alert.py` line 118
(`'✅ Yes' if condition_met else '❌ No'`, `condition_met = ret_today <=
-sigma[symbol]`): the only affirmative label this variant can produce is
its 1σ one. -/
def qld_signal_label (ret_today sigma : ℚ) : SignalLabel :=
  if ret_today ≤ -sigma then .oneSigma else .no

/-- The label of `TQQQ_SOXL_2sigma_alert.py` line 147
(`'✅ 2σ' if buy_signal else '❌ No'`,
`buy_signal = current <= prev*(1-2σ)`). -/
def tqqq_soxl_signal_label (prev_close current_price sigma : ℚ) :
    SignalLabel :=
  if current_price ≤ prev_close * (1 - 2 * sigma) then .twoSigma else .no

/-- The label of `TQQQ_SSO_QLD_2sigma_alert.py` line 167 (same 2σ-only
rule). -/
def sso_qld_signal_label (prev_close current_price sigma : ℚ) :
    SignalLabel :=
  if current_price ≤ prev_close * (1 - 2 * sigma) then .twoSigma else .no

/-- C9, counterexample: no variant evaluates both thresholds.  With
`sigma = 0.05`, `prev = 100`: at `current = 94` the 1σ threshold (95) is
crossed but both 2σ variants report no signal at all; and when both
thresholds are crossed (`ret = -0.2`) the 1σ variant still reports its 1σ
label, not a preferred 2σ one. -/
theorem C9_counterexample :
    tqqq_soxl_signal_label 100 94 (1 / 20) = SignalLabel.no ∧
    sso_qld_signal_label 100 94 (1 / 20) = SignalLabel.no ∧
    qld_signal_label (-(6 / 100)) (1 / 20) = SignalLabel.oneSigma ∧
    qld_signal_label (-(1 / 5)) (1 / 20) = SignalLabel.oneSigma := by
  refine ⟨?_, ?_, ?_, ?_⟩ <;>
    norm_num [tqqq_soxl_signal_label, sso_qld_signal_label, qld_signal_label]

/-- C9, amended: each composer variant evaluates a single threshold.  The
2σ scripts label a crossing `2σ` and can never emit a 1σ label; the 1σ
script labels a crossing with its affirmative (`Yes`) label and can never
emit a 2σ label; no variant tests both thresholds. -/
theorem C9_single_threshold_amended :
    ∀ prev current sigma ret : ℚ,
      ((tqqq_soxl_signal_label prev current sigma = SignalLabel.twoSigma
          ↔ current ≤ prev * (1 - 2 * sigma)) ∧
        tqqq_soxl_signal_label prev current sigma ≠ SignalLabel.oneSigma) ∧
      ((sso_qld_signal_label prev current sigma = SignalLabel.twoSigma
          ↔ current ≤ prev * (1 - 2 * sigma)) ∧
        sso_qld_signal_label prev current sigma ≠ SignalLabel.oneSigma) ∧
      ((qld_signal_label ret sigma = SignalLabel.oneSigma ↔ ret ≤ -sigma) ∧
        qld_signal_label ret sigma ≠ SignalLabel.twoSigma) := by
  intro prev current sigma ret
  unfold tqqq_soxl_signal_label sso_qld_signal_label qld_signal_label
  refine ⟨⟨?_, ?_⟩, ⟨?_, ?_⟩, ⟨?_, ?_⟩⟩ <;> split <;> simp_all
